import Mathlib

/-!
Verification of the yukikaze HTTP client core against its specification.

The definitions below are shallow embeddings of the corresponding Rust
functions from the repository (file and function names are given in the
doc comments). Byte strings are modelled as `List Nat` (one `Nat` per
byte); header maps are association lists keyed by the lower-case header
name, matching the normalised keys of the `http` crate's `HeaderMap`.
-/

/-- ASCII bytes of a Lean string literal; all literals used here are ASCII,
where a `Char`'s code point is exactly its byte. -/
def asciiBytes (s : String) : List Nat :=
  s.data.map Char.toNat

/-- Header map: association list from (lower-case) header name to value bytes.
Models `http::HeaderMap` as used by the repository. -/
def Headers : Type := List (String × List Nat)

/-- Lookup of a header value, as `HeaderMap::get`. -/
def hget : Headers → String → Option (List Nat)
  | [], _ => none
  | (k, v) :: rest, key => if k = key then some v else hget rest key

/-- Removal of a header, as `HeaderMap::remove`. -/
def hremove : Headers → String → Headers
  | [], _ => []
  | kv :: rest, key => if kv.1 = key then hremove rest key else kv :: hremove rest key

/-- Insertion that replaces any previous value, as `HeaderMap::insert`. -/
def hinsert (hs : Headers) (key : String) (v : List Nat) : Headers :=
  (key, v) :: hremove hs key

/-- Presence test, as `HeaderMap::contains_key`. -/
def hcontains (hs : Headers) (key : String) : Bool :=
  (hget hs key).isSome

theorem hget_hremove_self (hs : Headers) (key : String) :
    hget (hremove hs key) key = none := by
  induction hs with
  | nil => rfl
  | cons kv rest ih =>
    by_cases h : kv.1 = key
    · simpa [hremove, h] using ih
    · simpa [hremove, h, hget] using ih

theorem hget_hremove_ne (hs : Headers) (key k : String) (h : k ≠ key) :
    hget (hremove hs key) k = hget hs k := by
  induction hs with
  | nil => rfl
  | cons kv rest ih =>
    by_cases hk : kv.1 = key
    · have hk2 : kv.1 ≠ k := by
        rw [hk]; exact fun hh => h hh.symm
      rw [hremove, if_pos hk, ih]
      simp [hget, hk2]
    · by_cases hk2 : kv.1 = k
      · rw [hremove, if_neg hk]
        simp [hget, hk2]
      · rw [hremove, if_neg hk]
        simp [hget, hk2, ih]

theorem hget_hinsert_self (hs : Headers) (key : String) (v : List Nat) :
    hget (hinsert hs key v) key = some v := by
  simp [hinsert, hget]

theorem hget_hinsert_ne (hs : Headers) (key k : String) (v : List Nat) (h : k ≠ key) :
    hget (hinsert hs key v) k = hget hs k := by
  simp [hinsert, hget, Ne.symm h]
  exact hget_hremove_ne hs key k h

/-! ### C1 — `Builder::body` (src/client/request/mod.rs, lines 385-436) -/

/-- Request methods; the source matches on `hyper::Method::PUT | POST`
and treats every other method alike. -/
inductive Method
  | get | head | post | put | delete | options | patch
  deriving DecidableEq

/-- `utils::content_len_value`: formats the length as decimal ASCII bytes. -/
def content_len_value (n : Nat) : List Nat :=
  asciiBytes (toString n)

/-- `Builder::body` (finalisation step of `body`/`empty`): flushes the cookie
jar into a single `Cookie` header, then auto-manages `Content-Length`:
- no body and method `PUT`/`POST`: insert `Content-Length: 0` if vacant;
- no body otherwise: remove `Content-Length`;
- body present: insert its length if vacant.
Returns the final header map and the body. -/
def flush_cookies (headers : Headers) (cookieValue : Option (List Nat)) : Headers :=
  match cookieValue with
  | some c => hinsert headers "cookie" c
  | none => headers

def builder_body (method : Method) (headers : Headers) (cookieValue : Option (List Nat))
    (body : Option (List Nat)) : Headers × Option (List Nat) :=
  let headers := flush_cookies headers cookieValue
  let headers := match body with
    | none =>
      match method with
      | .put | .post =>
        if hcontains headers "content-length" then headers
        else hinsert headers "content-length" (content_len_value 0)
      | _ => hremove headers "content-length"
    | some b =>
      if hcontains headers "content-length" then headers
      else hinsert headers "content-length" (content_len_value b.length)
  (headers, body)

theorem hget_builder_cookie (hs : Headers) (ck : Option (List Nat)) :
    hget (flush_cookies hs ck) "content-length" = hget hs "content-length" := by
  cases ck with
  | none => rfl
  | some c => exact hget_hinsert_ne hs "cookie" "content-length" c (by decide)

/-- C1: `Builder::body`/`Builder::empty` auto-manage `Content-Length`:
absent body with method POST/PUT yields `Content-Length: 0` unless the caller
set the header; absent body with any other method removes the header even if
the caller set it; a present body of `b` bytes yields `Content-Length: len(b)`
unless the caller set the header, in which case the caller's value is kept. -/
theorem builder_body_content_length (m : Method) (hs : Headers) (ck : Option (List Nat))
    (b : Option (List Nat)) :
    (b = none → (m = .post ∨ m = .put) →
      hget (builder_body m hs ck b).1 "content-length"
        = some ((hget hs "content-length").getD (content_len_value 0)))
    ∧ (b = none → m ≠ .post → m ≠ .put →
      hget (builder_body m hs ck b).1 "content-length" = none)
    ∧ (∀ bs, b = some bs →
      hget (builder_body m hs ck b).1 "content-length"
        = some ((hget hs "content-length").getD (content_len_value bs.length))) := by
  have hck := hget_builder_cookie hs ck
  refine ⟨?_, ?_, ?_⟩
  · rintro rfl (rfl | rfl) <;>
    · show hget (if hcontains (flush_cookies hs ck) "content-length" then flush_cookies hs ck
          else hinsert (flush_cookies hs ck) "content-length" (content_len_value 0)) "content-length"
        = some ((hget hs "content-length").getD (content_len_value 0))
      by_cases hc : hcontains (flush_cookies hs ck) "content-length" = true
      · rw [if_pos hc, hck]
        rw [hcontains, hck] at hc
        obtain ⟨v, hv⟩ := Option.isSome_iff_exists.mp hc
        rw [hv]; rfl
      · rw [if_neg hc, hget_hinsert_self]
        rw [hcontains, hck] at hc
        rw [Option.not_isSome_iff_eq_none.mp hc]
        rfl
  · rintro rfl hp hq
    have hmm : (builder_body m hs ck none).1 = hremove (flush_cookies hs ck) "content-length" := by
      cases m with
      | post => exact absurd rfl hp
      | put => exact absurd rfl hq
      | get => rfl
      | head => rfl
      | delete => rfl
      | options => rfl
      | patch => rfl
    rw [hmm, hget_hremove_self]
  · rintro bs rfl
    show hget (if hcontains (flush_cookies hs ck) "content-length" then flush_cookies hs ck
        else hinsert (flush_cookies hs ck) "content-length" (content_len_value bs.length)) "content-length"
      = some ((hget hs "content-length").getD (content_len_value bs.length))
    by_cases hc : hcontains (flush_cookies hs ck) "content-length" = true
    · rw [if_pos hc, hck]
      rw [hcontains, hck] at hc
      obtain ⟨v, hv⟩ := Option.isSome_iff_exists.mp hc
      rw [hv]; rfl
    · rw [if_neg hc, hget_hinsert_self]
      rw [hcontains, hck] at hc
      rw [Option.not_isSome_iff_eq_none.mp hc]
      rfl

/-- Witness for C1: an empty POST gets `Content-Length: 0`. -/
theorem builder_body_content_length_witness :
    hget (builder_body .post [] none none).1 "content-length"
      = some (content_len_value 0) :=
  (builder_body_content_length .post [] none none).1 rfl (Or.inl rfl)

/-! ### C2 — redirect credential scrubbing
(src/client/mod.rs lines 268-285, src/client/response/redirect.rs lines 110-127) -/

/-- The header-map update performed by `Client::redirect_request` (and by
`HyperRedirectFuture::poll`, whose code is identical) once the `Location`
header parsed as a URI: when the location has a scheme it is treated as
absolute, and when the previous URI has a host that does not match the
location's host (or the location has no authority) the credential-bearing
headers are removed. Relative locations (no scheme) leave headers alone. -/
def redirect_scrub (prevAuthority : Option String) (locHasScheme : Bool)
    (locAuthority : Option String) (headers : Headers) : Headers :=
  if locHasScheme then
    match prevAuthority with
    | some prevHost =>
      if (locAuthority.map (fun h => h == prevHost)).getD false then headers
      else
        hremove (hremove (hremove (hremove headers "authorization") "cookie") "cookie2")
          "www-authenticate"
    | none => headers
  else headers

/-- C2: on a scheme-carrying `Location` whose host differs from the previous
request's host (or that has no authority), the headers `authorization`,
`cookie`, `cookie2` and `www-authenticate` are removed from the map used for
the next hop (all other headers untouched); on the same host the whole map is
retained unchanged. -/
theorem redirect_scrub_credentials (prevHost : String) (locAuth : Option String)
    (hs : Headers) :
    (locAuth = some prevHost → redirect_scrub (some prevHost) true locAuth hs = hs)
    ∧ ((∀ h, locAuth = some h → h ≠ prevHost) →
        hget (redirect_scrub (some prevHost) true locAuth hs) "authorization" = none
      ∧ hget (redirect_scrub (some prevHost) true locAuth hs) "cookie" = none
      ∧ hget (redirect_scrub (some prevHost) true locAuth hs) "cookie2" = none
      ∧ hget (redirect_scrub (some prevHost) true locAuth hs) "www-authenticate" = none
      ∧ ∀ k, k ≠ "authorization" → k ≠ "cookie" → k ≠ "cookie2" →
          k ≠ "www-authenticate" →
          hget (redirect_scrub (some prevHost) true locAuth hs) k = hget hs k) := by
  constructor
  · rintro rfl
    simp [redirect_scrub]
  · intro hdiff
    have hcond : (locAuth.map (fun h => h == prevHost)).getD false = false := by
      cases locAuth with
      | none => rfl
      | some h =>
        simpa [Option.map] using hdiff h rfl
    have hval : redirect_scrub (some prevHost) true locAuth hs
        = hremove (hremove (hremove (hremove hs "authorization") "cookie") "cookie2")
            "www-authenticate" := by
      simp [redirect_scrub, hcond]
    rw [hval]
    refine ⟨?_, ?_, ?_, ?_, ?_⟩
    · rw [hget_hremove_ne _ _ _ (by decide), hget_hremove_ne _ _ _ (by decide),
        hget_hremove_ne _ _ _ (by decide), hget_hremove_self]
    · rw [hget_hremove_ne _ _ _ (by decide), hget_hremove_ne _ _ _ (by decide),
        hget_hremove_self]
    · rw [hget_hremove_ne _ _ _ (by decide), hget_hremove_self]
    · rw [hget_hremove_self]
    · intro k h1 h2 h3 h4
      rw [hget_hremove_ne _ _ _ h4, hget_hremove_ne _ _ _ h3,
        hget_hremove_ne _ _ _ h2, hget_hremove_ne _ _ _ h1]

/-- Witness for C2: with previous host `orig.example`, a redirect to
`other.example` drops `authorization` while a redirect back to
`orig.example` keeps the map; the non-credential header `accept` survives
the scrub. -/
theorem redirect_scrub_credentials_witness :
    redirect_scrub (some "orig.example") true (some "orig.example")
        [("authorization", [65])] = [("authorization", [65])]
    ∧ hget (redirect_scrub (some "orig.example") true (some "other.example")
        [("authorization", [65]), ("accept", [66])]) "authorization" = none
    ∧ hget (redirect_scrub (some "orig.example") true (some "other.example")
        [("authorization", [65]), ("accept", [66])]) "accept" = some [66] := by
  have h1 := (redirect_scrub_credentials "orig.example" (some "orig.example")
    [("authorization", [65])]).1 rfl
  have h2 := (redirect_scrub_credentials "orig.example" (some "other.example")
    [("authorization", [65]), ("accept", [66])]).2
    (by intro h hh; cases hh; decide)
  exact ⟨h1, h2.1, (h2.2.2.2.2 "accept" (by decide) (by decide) (by decide)
    (by decide)).trans (by decide)⟩

/-! ### C3/C7/C8 — body extraction pipeline (src/extractor/body.rs) -/

/-- `BodyReadError` variants reachable in the byte extractors. -/
inductive BodyReadError
  | overflow (bytes : List Nat)
  | compuError
  | incompleteDecompression
  deriving DecidableEq

/-- `compu::decoder::DecoderResult` as consumed by the extraction loops:
`Finished`, `NeedInput`, or any other result (treated as an error). -/
inductive DecoderResult
  | finished
  | needInput
  | other
  deriving DecidableEq

/-- Model of a streaming decoder (`compu::decompressor::memory::Decompressor`):
`push` consumes a chunk and returns the new state with a `DecoderResult`;
`output` is the decoded bytes accumulated so far (`decoder.output()` /
`decoder.take()`); `finished` is `decoder.decoder().is_finished()`. -/
structure DecoderModel (σ : Type) where
  init : σ
  push : σ → List Nat → σ × DecoderResult
  output : σ → List Nat
  finished : σ → Bool

/-- `calculate_buffer_size` (src/extractor/body.rs lines 20-26): with an
explicit limit returns it, otherwise the default `BUFFER_SIZE = 4096`. -/
def calculate_buffer_size (limit : Option Nat) : Nat × Nat :=
  match limit with
  | some l => (l, min 4096 l)
  | none => (4096, 4096)

/-- The identity-encoding loop of `raw_bytes`: append each chunk to the
buffer, and return `Overflow(buffer)` as soon as the buffer length exceeds
the limit; on end of stream return the buffer. -/
def raw_bytes_identity (limit : Nat) : List (List Nat) → List Nat →
    Except BodyReadError (List Nat)
  | [], buffer => .ok buffer
  | c :: rest, buffer =>
    let buffer' := buffer ++ c
    if buffer'.length > limit then .error (.overflow buffer')
    else raw_bytes_identity limit rest buffer'

/-- The compressed-encoding loop of `raw_bytes` (`impl_compu_bytes`,
src/extractor/body.rs lines 29-53): push each chunk into the decoder; on
`Finished` break out and return the decoded output (when the decoder reports
finished); on `NeedInput` compare the decoded length against the limit and
return `Overflow(output)` when exceeded; any other push result is a
`CompuError`. The second component records whether the loop exited through
the `Finished` branch. -/
def compu_bytes_flag {σ : Type} (d : DecoderModel σ) (limit : Nat) :
    List (List Nat) → σ → Except BodyReadError (List Nat) × Bool
  | [], st =>
    (if d.finished st then .ok (d.output st) else .error .incompleteDecompression, false)
  | c :: rest, st =>
    match (d.push st c).2 with
    | .finished =>
      (if d.finished (d.push st c).1 then .ok (d.output (d.push st c).1)
        else .error .incompleteDecompression, true)
    | .needInput =>
      if limit < (d.output (d.push st c).1).length then
        (.error (.overflow (d.output (d.push st c).1)), false)
      else compu_bytes_flag d limit rest (d.push st c).1
    | .other => (.error .compuError, false)

/-- `raw_bytes` for compressed encodings: run the decoder loop starting from
the decoder's initial state with the limit from `calculate_buffer_size`. -/
def raw_bytes_compu {σ : Type} (d : DecoderModel σ) (limit : Option Nat)
    (chunks : List (List Nat)) : Except BodyReadError (List Nat) :=
  (compu_bytes_flag d (calculate_buffer_size limit).1 chunks d.init).1

/-- `raw_bytes` for the identity encoding: run the accumulation loop on an
empty buffer with the limit from `calculate_buffer_size`. -/
def raw_bytes_id (limit : Option Nat) (chunks : List (List Nat)) :
    Except BodyReadError (List Nat) :=
  raw_bytes_identity (calculate_buffer_size limit).1 chunks []

/-- The identity-encoding loop of `raw_bytes_notify` (lines 315-330): the
notifier is invoked with the chunk's byte count after appending and before
the overflow check; the second component is the list of notified counts. -/
def raw_bytes_identity_notify (limit : Nat) : List (List Nat) → List Nat →
    Except BodyReadError (List Nat) × List Nat
  | [], buffer => (.ok buffer, [])
  | c :: rest, buffer =>
    let buffer' := buffer ++ c
    if buffer'.length > limit then (.error (.overflow buffer'), [c.length])
    else
      let r := raw_bytes_identity_notify limit rest buffer'
      (r.1, c.length :: r.2)

/-- `header::ContentEncoding` as dispatched on by the extractors. -/
inductive ContentEncoding
  | identity | gzip | deflate | brotli
  deriving DecidableEq

/-- `raw_bytes_notify` (src/extractor/body.rs lines 295-331). Its three
compressed arms (lines 303, 308, 313) expand the 3-argument arm of
`impl_compu_bytes` — the arm without `$notify` — so the `notify` parameter is
used only by the identity arm; the 4-argument notify arm of the macro
(lines 54-79) has no caller among the extractors. The second component is
the list of byte counts the notifier was invoked with: empty for the
compressed arms, one entry per received chunk for the identity arm. -/
def raw_bytes_notify {σ : Type} (encoding : ContentEncoding) (d : DecoderModel σ)
    (limit : Option Nat) (chunks : List (List Nat)) :
    Except BodyReadError (List Nat) × List Nat :=
  match encoding with
  | .brotli | .gzip | .deflate =>
    ((compu_bytes_flag d (calculate_buffer_size limit).1 chunks d.init).1, [])
  | .identity =>
    raw_bytes_identity_notify (calculate_buffer_size limit).1 chunks []

theorem raw_bytes_identity_ok_le (limit : Nat) :
    ∀ (chunks : List (List Nat)) (buffer out : List Nat),
      raw_bytes_identity limit chunks buffer = .ok out →
      buffer.length ≤ limit → out.length ≤ limit := by
  intro chunks
  induction chunks with
  | nil =>
    intro buffer out h hb
    cases h
    exact hb
  | cons c rest ih =>
    intro buffer out h hb
    simp only [raw_bytes_identity] at h
    by_cases hov : (buffer ++ c).length > limit
    · rw [if_pos hov] at h
      exact Except.noConfusion h
    · rw [if_neg hov] at h
      exact ih (buffer ++ c) out h (Nat.le_of_not_lt hov)

theorem raw_bytes_identity_overflow_gt (limit : Nat) :
    ∀ (chunks : List (List Nat)) (buffer p : List Nat),
      raw_bytes_identity limit chunks buffer = .error (.overflow p) →
      limit < p.length := by
  intro chunks
  induction chunks with
  | nil =>
    intro buffer p h
    exact Except.noConfusion h
  | cons c rest ih =>
    intro buffer p h
    simp only [raw_bytes_identity] at h
    by_cases hov : (buffer ++ c).length > limit
    · rw [if_pos hov] at h
      injection h with h
      injection h with h
      rw [← h]
      exact hov
    · rw [if_neg hov] at h
      exact ih (buffer ++ c) p h

theorem compu_bytes_overflow_gt {σ : Type} (d : DecoderModel σ) (limit : Nat) :
    ∀ (chunks : List (List Nat)) (st : σ) (p : List Nat),
      (compu_bytes_flag d limit chunks st).1 = .error (.overflow p) →
      limit < p.length := by
  intro chunks
  induction chunks with
  | nil =>
    intro st p h
    simp only [compu_bytes_flag] at h
    split at h
    · exact Except.noConfusion h
    · injection h with h
      exact BodyReadError.noConfusion h
  | cons c rest ih =>
    intro st p h
    rcases hr : (d.push st c).2 with _ | _ | _
    · simp only [compu_bytes_flag, hr] at h
      split at h
      · exact Except.noConfusion h
      · injection h with h
        exact BodyReadError.noConfusion h
    · simp only [compu_bytes_flag, hr] at h
      by_cases hov : limit < (d.output (d.push st c).1).length
      · rw [if_pos hov] at h
        injection h with h
        injection h with h
        rw [← h]
        exact hov
      · rw [if_neg hov] at h
        exact ih (d.push st c).1 p h
    · simp only [compu_bytes_flag, hr] at h
      injection h with h
      exact BodyReadError.noConfusion h

theorem compu_bytes_ok_over_limit_finished {σ : Type} (d : DecoderModel σ) (limit : Nat) :
    ∀ (chunks : List (List Nat)) (st : σ) (out : List Nat),
      (compu_bytes_flag d limit chunks st).1 = .ok out →
      (d.output st).length ≤ limit → limit < out.length →
      (compu_bytes_flag d limit chunks st).2 = true := by
  intro chunks
  induction chunks with
  | nil =>
    intro st out h hst hover
    simp only [compu_bytes_flag] at h
    split at h
    · cases h
      exact absurd hover (Nat.not_lt.mpr hst)
    · exact Except.noConfusion h
  | cons c rest ih =>
    intro st out h hst hover
    rcases hr : (d.push st c).2 with _ | _ | _
    · simp only [compu_bytes_flag, hr]
    · simp only [compu_bytes_flag, hr] at h ⊢
      by_cases hov : limit < (d.output (d.push st c).1).length
      · rw [if_pos hov] at h
        exact Except.noConfusion h
      · rw [if_neg hov] at h ⊢
        exact ih (d.push st c).1 out h (Nat.le_of_not_lt hov) hover
    · simp only [compu_bytes_flag, hr] at h
      exact Except.noConfusion h

/-- A decoder model that doubles each input chunk and reports `Finished` on
the first push: a stand-in for a compressed stream whose final chunk expands
past the limit. -/
def doubling_decoder : DecoderModel (List Nat) where
  init := []
  push st c := (st ++ c ++ c, .finished)
  output st := st
  finished _ := true

/-- Counterexample to C3 as stated: with configured limit 2 and a compressed
stream whose single chunk decodes (via `doubling_decoder`) to 4 bytes while
finishing, `raw_bytes` returns those 4 bytes successfully — more bytes than
the limit — because the `Finished` branch of `impl_compu_bytes` breaks out of
the loop before the limit check runs. -/
theorem raw_bytes_limit_counterexample :
    raw_bytes_compu doubling_decoder (some 2) [[9, 9]] = .ok [9, 9, 9, 9]
    ∧ 2 < ([9, 9, 9, 9] : List Nat).length :=
  ⟨rfl, by decide⟩

/-- C3 (amended): the identity path never returns successfully with more
bytes than the limit; for compressed encodings this holds except when the
decoder reports `Finished` on a pushed chunk, in which case the full decoded
output is returned even above the limit; in every encoding, an `Overflow`
carries the already-accumulated payload, whose length exceeds the limit and
which is therefore non-empty. -/
theorem raw_bytes_limit {σ : Type} (d : DecoderModel σ) (limit : Nat)
    (chunks : List (List Nat)) (buffer : List Nat) (st : σ) :
    (∀ out, raw_bytes_identity limit chunks buffer = .ok out →
      buffer.length ≤ limit → out.length ≤ limit)
    ∧ (∀ p, raw_bytes_identity limit chunks buffer = .error (.overflow p) →
      limit < p.length ∧ p ≠ [])
    ∧ (∀ p, (compu_bytes_flag d limit chunks st).1 = .error (.overflow p) →
      limit < p.length ∧ p ≠ [])
    ∧ (∀ out, (compu_bytes_flag d limit chunks st).1 = .ok out →
      (d.output st).length ≤ limit → limit < out.length →
      (compu_bytes_flag d limit chunks st).2 = true) := by
  refine ⟨?_, ?_, ?_, ?_⟩
  · exact fun out h hb => raw_bytes_identity_ok_le limit chunks buffer out h hb
  · intro p h
    have hgt := raw_bytes_identity_overflow_gt limit chunks buffer p h
    exact ⟨hgt, List.ne_nil_of_length_pos (Nat.lt_of_le_of_lt (Nat.zero_le limit) hgt)⟩
  · intro p h
    have hgt := compu_bytes_overflow_gt d limit chunks st p h
    exact ⟨hgt, List.ne_nil_of_length_pos (Nat.lt_of_le_of_lt (Nat.zero_le limit) hgt)⟩
  · exact fun out h hst hover =>
      compu_bytes_ok_over_limit_finished d limit chunks st out h hst hover

/-- Witness for C3: with limit 1, identity extraction of the chunks
`[[7], [8]]` trips the overflow check and surrenders the non-empty
accumulated buffer `[7, 8]`. -/
theorem raw_bytes_limit_witness :
    raw_bytes_identity 1 [[7], [8]] [] = .error (.overflow [7, 8])
    ∧ 1 < ([7, 8] : List Nat).length ∧ ([7, 8] : List Nat) ≠ [] := by
  have h := (raw_bytes_limit doubling_decoder 1 [[7], [8]] [] []).2.1 [7, 8] rfl
  exact ⟨rfl, h.1, h.2⟩

theorem raw_bytes_identity_total_ok (limit : Nat) :
    ∀ (chunks : List (List Nat)) (buffer : List Nat),
      buffer.length + (chunks.map List.length).sum ≤ limit →
      raw_bytes_identity limit chunks buffer = .ok (buffer ++ chunks.flatten) := by
  intro chunks
  induction chunks with
  | nil =>
    intro buffer _
    simp [raw_bytes_identity]
  | cons c rest ih =>
    intro buffer htot
    simp only [List.map_cons, List.sum_cons] at htot
    have hlen : (buffer ++ c).length ≤ limit := by
      rw [List.length_append]
      omega
    simp only [raw_bytes_identity, if_neg (Nat.not_lt.mpr hlen)]
    rw [ih (buffer ++ c) (by rw [List.length_append]; omega)]
    simp [List.flatten]

/-- Counterexample to C7 as stated: a single 4097-byte chunk — far below
2 MiB — extracted with no explicit limit returns `Overflow`, because the
default limit from `calculate_buffer_size` is `BUFFER_SIZE = 4096` bytes,
not 2 MiB. -/
theorem default_limit_counterexample :
    raw_bytes_id none [List.replicate 4097 0] = .error (.overflow (List.replicate 4097 0))
    ∧ (List.replicate 4097 (0 : Nat)).length ≤ 2 * 1024 * 1024 := by
  constructor
  · show raw_bytes_identity 4096 [List.replicate 4097 0] [] = _
    simp only [raw_bytes_identity, List.nil_append]
    rw [if_pos (by rw [List.length_replicate]; omega)]
  · rw [List.length_replicate]
    omega

/-- C7 (amended): when no byte limit is supplied, the enforced default limit
is `BUFFER_SIZE = 4096` bytes; identity extraction of any chunk stream whose
accumulated size stays at or below 4096 bytes completes without `Overflow`,
returning all the bytes. -/
theorem default_limit_4096 (chunks : List (List Nat)) :
    (calculate_buffer_size none).1 = 4096
    ∧ ((chunks.map List.length).sum ≤ 4096 →
      raw_bytes_id none chunks = .ok chunks.flatten) := by
  refine ⟨rfl, fun h => ?_⟩
  show raw_bytes_identity 4096 chunks [] = _
  rw [raw_bytes_identity_total_ok 4096 chunks [] (by simpa using h)]
  simp

/-- Witness for C7: two chunks of total size 3 extract without overflow under
the default limit. -/
theorem default_limit_4096_witness :
    raw_bytes_id none [[1], [2, 3]] = .ok [1, 2, 3] :=
  (default_limit_4096 [[1], [2, 3]]).2 (by decide)

theorem raw_bytes_identity_notify_ok_log (limit : Nat) :
    ∀ (chunks : List (List Nat)) (buffer out : List Nat),
      (raw_bytes_identity_notify limit chunks buffer).1 = .ok out →
      (raw_bytes_identity_notify limit chunks buffer).2 = chunks.map List.length := by
  intro chunks
  induction chunks with
  | nil =>
    intro buffer out _
    rfl
  | cons c rest ih =>
    intro buffer out h
    simp only [raw_bytes_identity_notify] at h ⊢
    by_cases hov : (buffer ++ c).length > limit
    · rw [if_pos hov] at h
      exact Except.noConfusion h
    · rw [if_neg hov] at h ⊢
      simp only [List.map_cons]
      rw [ih (buffer ++ c) out h]

theorem raw_bytes_identity_notify_overflow_log (limit : Nat) :
    ∀ (chunks : List (List Nat)) (buffer p : List Nat),
      (raw_bytes_identity_notify limit chunks buffer).1 = .error (.overflow p) →
      ∃ k, 0 < k ∧ k ≤ chunks.length
        ∧ (raw_bytes_identity_notify limit chunks buffer).2 = (chunks.take k).map List.length
        ∧ p = buffer ++ (chunks.take k).flatten ∧ limit < p.length := by
  intro chunks
  induction chunks with
  | nil =>
    intro buffer p h
    exact Except.noConfusion h
  | cons c rest ih =>
    intro buffer p h
    simp only [raw_bytes_identity_notify] at h ⊢
    by_cases hov : (buffer ++ c).length > limit
    · rw [if_pos hov] at h ⊢
      injection h with h
      injection h with h
      refine ⟨1, Nat.one_pos, by simp, by simp, ?_, ?_⟩
      · rw [← h]; simp
      · rw [← h]; exact hov
    · rw [if_neg hov] at h ⊢
      obtain ⟨k, hk0, hkle, hlog, hp, hlt⟩ := ih (buffer ++ c) p h
      refine ⟨k + 1, Nat.succ_pos k, by simpa using hkle, ?_, ?_, hlt⟩
      · simp only [List.take_succ_cons, List.map_cons]
        rw [hlog]
      · rw [hp]
        simp [List.append_assoc]

/-- C8: the code evaluated at the failing input. For every compressed
`Content-Encoding` (gzip, deflate, brotli), `raw_bytes_notify` never invokes
the supplied notifier: its notification log is empty for every chunk stream,
every decoder and every limit — in particular for a gzip stream whose single
2-byte chunk is received and fully decoded — while the identity arm notifies
once per chunk (log `[2]` for the same one-chunk stream). The compressed
arms expand the 3-argument non-notify arm of `impl_compu_bytes` instead of
the 4-argument notify arm, which no extractor calls. -/
theorem raw_bytes_notify_bug :
    (∀ (σ : Type) (d : DecoderModel σ) (limit : Option Nat) (chunks : List (List Nat)),
      (raw_bytes_notify .gzip d limit chunks).2 = []
      ∧ (raw_bytes_notify .deflate d limit chunks).2 = []
      ∧ (raw_bytes_notify .brotli d limit chunks).2 = [])
    ∧ (raw_bytes_notify .gzip doubling_decoder none [[9, 9]]).2 = []
    ∧ (raw_bytes_notify .gzip doubling_decoder none [[9, 9]]).1 = .ok [9, 9, 9, 9]
    ∧ (raw_bytes_notify .identity doubling_decoder none [[9, 9]]).2 = [2] :=
  ⟨fun _ _ _ _ => ⟨rfl, rfl, rfl⟩, rfl, rfl, by decide⟩

/-! ### C4 — `WebsocketUpgrade::verify_response`
(src/upgrade/websocket.rs lines 174-199) -/

/-- Standard base64 alphabet as byte values, as used by
`data_encoding::BASE64`. -/
def base64_alphabet : List Nat :=
  ((List.range 26).map (fun i => 65 + i)) ++ ((List.range 26).map (fun i => 97 + i))
    ++ ((List.range 10).map (fun i => 48 + i)) ++ [43, 47]

def base64_char (n : Nat) : Nat :=
  base64_alphabet.getD n 0

/-- Base64 encoding with `=` (61) padding, as `data_encoding::BASE64`. -/
def base64_encode : List Nat → List Nat
  | b1 :: b2 :: b3 :: rest =>
    base64_char (b1 / 4) :: base64_char ((b1 % 4) * 16 + b2 / 16)
      :: base64_char ((b2 % 16) * 4 + b3 / 64) :: base64_char (b3 % 64)
      :: base64_encode rest
  | [b1, b2] =>
    [base64_char (b1 / 4), base64_char ((b1 % 4) * 16 + b2 / 16),
      base64_char ((b2 % 16) * 4), 61]
  | [b1] =>
    [base64_char (b1 / 4), base64_char ((b1 % 4) * 16), 61, 61]
  | [] => []

/-- `u8::to_ascii_lowercase`. -/
def ascii_lower (b : Nat) : Nat :=
  if 65 ≤ b ∧ b ≤ 90 then b + 32 else b

/-- `eq_ignore_ascii_case` over bytes. The source first runs
`HeaderValue::to_str` and treats failure as a mismatch; since the reference
words `websocket`/`Upgrade` are visible ASCII, a value failing `to_str` can
never compare equal to them, so byte-level comparison is extensionally the
same check. -/
def eq_ignore_ascii_case (a b : List Nat) : Bool :=
  a.map ascii_lower == b.map ascii_lower

/-- `GUID = "258EAFA5-E914-47DA-95CA-C5AB0DC85B11"` as bytes. -/
def guid_bytes : List Nat :=
  asciiBytes "258EAFA5-E914-47DA-95CA-C5AB0DC85B11"

/-- `SecKey::validate_challenge`, parameterised by the SHA-1 digest function
(`ring::digest::SHA1_FOR_LEGACY_USE_ONLY`, an external collaborator): the
stored key concatenated with the GUID is hashed, base64-encoded, and compared
byte-exactly with the received challenge. -/
def validate_challenge (sha1 : List Nat → List Nat) (key challenge : List Nat) : Bool :=
  base64_encode (sha1 (key ++ guid_bytes)) == challenge

/-- `WebsocketUpgradeError` (src/upgrade/websocket.rs lines 47-58). -/
inductive WebsocketUpgradeError
  | invalidStatus (code : Nat)
  | invalidUpgradeType
  | invalidConnectionHeader
  | missingChallenge
  | invalidChallenge
  deriving DecidableEq

/-- Outcome of `verify_response`: success, a typed error, or the panic taken
when the stored `Sec-WebSocket-Key` is missing from the extensions. -/
inductive VerifyOutcome
  | panicked
  | err (e : WebsocketUpgradeError)
  | ok
  deriving DecidableEq

/-- The `Upgrade: websocket` header check of `verify_response`. -/
def upgrade_header_ok (headers : Headers) : Bool :=
  ((hget headers "upgrade").map
    (fun v => eq_ignore_ascii_case v (asciiBytes "websocket"))).getD false

/-- The `Connection: Upgrade` header check of `verify_response`
(`CONNECTION_TYPE = "Upgrade"`). -/
def connection_header_ok (headers : Headers) : Bool :=
  ((hget headers "connection").map
    (fun v => eq_ignore_ascii_case v (asciiBytes "Upgrade"))).getD false

/-- `WebsocketUpgrade::verify_response`: status must be 101, then the
`Upgrade` and `Connection` headers are checked case-insensitively, then the
stored key is looked up (missing key panics), then `Sec-WebSocket-Accept`
must be present and match the recomputed challenge byte-exactly. -/
def verify_response (sha1 : List Nat → List Nat) (status : Nat) (headers : Headers)
    (storedKey : Option (List Nat)) : VerifyOutcome :=
  if status ≠ 101 then .err (.invalidStatus status)
  else if upgrade_header_ok headers = false then .err .invalidUpgradeType
  else if connection_header_ok headers = false then .err .invalidConnectionHeader
  else
    match storedKey with
    | some key =>
      match hget headers "sec-websocket-accept" with
      | some challenge =>
        if validate_challenge sha1 key challenge then .ok else .err .invalidChallenge
      | none => .err .missingChallenge
    | none => .panicked

/-- C4: `verify_response` returns Ok exactly when the status is 101, the
`Upgrade` header matches `websocket` and `Connection` matches `Upgrade`
ASCII-case-insensitively, and `Sec-WebSocket-Accept` equals
`base64(SHA1(stored_key || GUID))` byte-exactly; each failed check yields, in
order, `InvalidStatus(code)`, `InvalidUpgradeType`, `InvalidConnectionHeader`,
`MissingChallenge` or `InvalidChallenge`, and a missing stored key panics. -/
theorem verify_response_spec (sha1 : List Nat → List Nat) (status : Nat)
    (headers : Headers) (storedKey : Option (List Nat)) :
    (verify_response sha1 status headers storedKey = .ok ↔
      status = 101 ∧ upgrade_header_ok headers = true ∧ connection_header_ok headers = true
      ∧ ∃ key challenge, storedKey = some key
          ∧ hget headers "sec-websocket-accept" = some challenge
          ∧ challenge = base64_encode (sha1 (key ++ guid_bytes)))
    ∧ (status ≠ 101 →
      verify_response sha1 status headers storedKey = .err (.invalidStatus status))
    ∧ (status = 101 → upgrade_header_ok headers = false →
      verify_response sha1 status headers storedKey = .err .invalidUpgradeType)
    ∧ (status = 101 → upgrade_header_ok headers = true →
      connection_header_ok headers = false →
      verify_response sha1 status headers storedKey = .err .invalidConnectionHeader)
    ∧ (status = 101 → upgrade_header_ok headers = true →
      connection_header_ok headers = true → storedKey = none →
      verify_response sha1 status headers storedKey = .panicked)
    ∧ (status = 101 → upgrade_header_ok headers = true →
      connection_header_ok headers = true → ∀ key, storedKey = some key →
      hget headers "sec-websocket-accept" = none →
      verify_response sha1 status headers storedKey = .err .missingChallenge)
    ∧ (status = 101 → upgrade_header_ok headers = true →
      connection_header_ok headers = true → ∀ key challenge, storedKey = some key →
      hget headers "sec-websocket-accept" = some challenge →
      challenge ≠ base64_encode (sha1 (key ++ guid_bytes)) →
      verify_response sha1 status headers storedKey = .err .invalidChallenge) := by
  refine ⟨?_, ?_, ?_, ?_, ?_, ?_, ?_⟩
  · constructor
    · intro h
      by_cases h1 : status = 101
      · rw [verify_response.eq_def, if_neg (not_not_intro h1)] at h
        by_cases h2 : upgrade_header_ok headers = false
        · rw [if_pos h2] at h
          exact VerifyOutcome.noConfusion h
        · rw [if_neg h2] at h
          by_cases h3 : connection_header_ok headers = false
          · rw [if_pos h3] at h
            exact VerifyOutcome.noConfusion h
          · rw [if_neg h3] at h
            rcases hk : storedKey with _ | key
            · simp only [hk] at h
              exact VerifyOutcome.noConfusion h
            · simp only [hk] at h
              rcases hc : hget headers "sec-websocket-accept" with _ | challenge
              · simp only [hc] at h
                exact VerifyOutcome.noConfusion h
              · simp only [hc] at h
                by_cases hv : validate_challenge sha1 key challenge = true
                · refine ⟨h1, eq_true_of_ne_false h2, eq_true_of_ne_false h3,
                    key, challenge, rfl, rfl, ?_⟩
                  rw [validate_challenge] at hv
                  exact (beq_iff_eq.mp hv).symm
                · simp only [if_neg hv] at h
                  exact VerifyOutcome.noConfusion h
      · rw [verify_response.eq_def, if_pos h1] at h
        exact VerifyOutcome.noConfusion h
    · rintro ⟨h1, h2, h3, key, challenge, hk, hc, hch⟩
      subst h1
      simp [verify_response.eq_def, h2, h3, hk, hc, validate_challenge, hch]
  · intro h1
    rw [verify_response.eq_def, if_pos h1]
  · intro h1 h2
    subst h1
    simp [verify_response.eq_def, h2]
  · intro h1 h2 h3
    subst h1
    simp [verify_response.eq_def, h2, h3]
  · intro h1 h2 h3 hk
    subst h1
    simp [verify_response.eq_def, h2, h3, hk]
  · intro h1 h2 h3 key hk hc
    subst h1
    simp [verify_response.eq_def, h2, h3, hk, hc]
  · intro h1 h2 h3 key challenge hk hc hch
    subst h1
    have hb : (base64_encode (sha1 (key ++ guid_bytes)) == challenge) = false :=
      beq_eq_false_iff_ne.mpr fun hh => hch hh.symm
    simp [verify_response.eq_def, h2, h3, hk, hc, validate_challenge, hb]

/-- Witness for C4: a response with status 101, case-variant `Upgrade` and
`Connection` headers and the correct challenge for key byte `[107]` (with the
digest instantiated as the identity function) verifies successfully. -/
theorem verify_response_spec_witness :
    verify_response id 101
      [("upgrade", asciiBytes "WebSocket"), ("connection", asciiBytes "upgrade"),
        ("sec-websocket-accept", base64_encode ([107] ++ guid_bytes))]
      (some [107]) = .ok :=
  (verify_response_spec id 101
    [("upgrade", asciiBytes "WebSocket"), ("connection", asciiBytes "upgrade"),
      ("sec-websocket-accept", base64_encode ([107] ++ guid_bytes))]
    (some [107])).1.mpr
    ⟨rfl, by decide, by decide, [107], base64_encode ([107] ++ guid_bytes), rfl, rfl, rfl⟩

/-! ### C5 — multipart `Form` (src/client/request/multipart.rs) -/

theorem asciiBytes_append (s t : String) :
    asciiBytes (s ++ t) = asciiBytes s ++ asciiBytes t := by
  simp [asciiBytes, String.data_append]

/-- `Display` of `ContentDisposition::FormData(Some(name), Filename::Name(None))`
(src/header/content_disposition.rs line 264). -/
def disp_form_data_field (name : String) : String :=
  "form-data; name=\"" ++ name ++ "\""

/-- `Display` of `ContentDisposition::FormData(Some(name), Filename::Name(Some(file)))`
(src/header/content_disposition.rs line 263). -/
def disp_form_data_file (name fileName : String) : String :=
  "form-data; name=\"" ++ name ++ "\"; filename=\"" ++ fileName ++ "\""

/-- `Form::add_field`: appends the boundary line, the `Content-Disposition`
header, a blank line, the data, and a trailing boundary line. -/
def add_field (boundary : String) (storage : List Nat) (name : String)
    (data : List Nat) : List Nat :=
  storage
    ++ asciiBytes ("--" ++ boundary ++ "\r\n" ++ "Content-Disposition: "
        ++ disp_form_data_field name ++ "\r\n" ++ "\r\n")
    ++ data
    ++ asciiBytes ("\r\n" ++ "--" ++ boundary ++ "\r\n")

/-- `Form::add_file_field`: like `add_field` but with a `filename` parameter
and a `Content-Type` header line. -/
def add_file_field (boundary : String) (storage : List Nat)
    (fieldName fileName mime : String) (data : List Nat) : List Nat :=
  storage
    ++ asciiBytes ("--" ++ boundary ++ "\r\n" ++ "Content-Disposition: "
        ++ disp_form_data_file fieldName fileName ++ "\r\n")
    ++ asciiBytes ("Content-Type: " ++ mime ++ "\r\n" ++ "\r\n")
    ++ data
    ++ asciiBytes ("\r\n" ++ "--" ++ boundary ++ "\r\n")

/-- `Form::finish`: an empty buffer finishes to `(0, empty)`; otherwise the
last two bytes are overwritten with 45 (`-`), `\r\n` is appended, and the
bytes are returned with length `len + 2`. -/
def form_finish (storage : List Nat) : Nat × List Nat :=
  let len := storage.length
  if len = 0 then (0, storage)
  else (len + 2, (storage.set (len - 2) 45).set (len - 1) 45 ++ asciiBytes "\r\n")

theorem set_last_two (front : List Nat) (x y a b : Nat) :
    ((front ++ [x, y]).set front.length a).set (front.length + 1) b
      = front ++ [a, b] := by
  induction front with
  | nil => rfl
  | cons f fs ih =>
    simp only [List.cons_append, List.length_cons, List.set_cons_succ]
    rw [ih]

/-- The 214-byte wire format actually produced for the two-field form of the
claim, matching the repository's own `multipart_form_add_multiple_fields`
test (note the doubled inter-part boundary `--yuki\r\n--yuki\r\n`). -/
def two_field_form_expected : String :=
  "--yuki\r\nContent-Disposition: form-data; name=\"SimpleField\"\r\n\r\nsimple test\r\n--yuki\r\n--yuki\r\nContent-Disposition: form-data; name=\"SimpleFile\"; filename=\"File.txt\"\r\nContent-Type: text/plain\r\n\r\nsimple file\r\n--yuki--\r\n"

set_option maxRecDepth 4000

/-- Counterexample to C5 as stated: the form with field
`SimpleField="simple test"` and file field
`SimpleFile/File.txt/text/plain="simple file"` under boundary `yuki`
finishes to 214 bytes, not the 175 the claim states. -/
theorem form_finish_counterexample :
    (form_finish (add_file_field "yuki"
      (add_field "yuki" [] "SimpleField" (asciiBytes "simple test"))
      "SimpleFile" "File.txt" "text/plain" (asciiBytes "simple file"))).1 = 214
    ∧ (214 : Nat) ≠ 175 := by
  constructor
  · decide
  · decide

/-- C5 (amended): `Form::finish` on an empty form returns `(0, empty)`; on a
buffer ending in an inter-part boundary `\r\n--<boundary>\r\n` (bytes
`[13, 10, 45, 45] ++ bb ++ [13, 10]` for boundary bytes `bb`) it overwrites
the trailing CRLF with `--` and appends CRLF, returning the bytes with their
length (`len + 2`); the concrete two-field form of the claim finishes to the
exact 214-byte literal of the repository's own test, which ends in
`--yuki--\r\n` and contains a doubled inter-part boundary between parts. -/
theorem form_finish_spec (storage : List Nat) :
    form_finish [] = (0, [])
    ∧ (∀ pre bb, storage = pre ++ [13, 10, 45, 45] ++ bb ++ [13, 10] →
      form_finish storage
        = (storage.length + 2, pre ++ [13, 10, 45, 45] ++ bb ++ [45, 45, 13, 10]))
    ∧ form_finish (add_file_field "yuki"
        (add_field "yuki" [] "SimpleField" (asciiBytes "simple test"))
        "SimpleFile" "File.txt" "text/plain" (asciiBytes "simple file"))
      = (214, asciiBytes two_field_form_expected) := by
  refine ⟨rfl, ?_, by decide⟩
  rintro pre bb rfl
  have hsplit : pre ++ [13, 10, 45, 45] ++ bb ++ [13, 10]
      = (pre ++ [13, 10, 45, 45] ++ bb) ++ [13, 10] := by
    simp [List.append_assoc]
  rw [hsplit]
  have hlen : ((pre ++ [13, 10, 45, 45] ++ bb) ++ [13, 10]).length
      = (pre ++ [13, 10, 45, 45] ++ bb).length + 2 := by
    simp
    omega
  rw [form_finish, hlen]
  have hne : (pre ++ [13, 10, 45, 45] ++ bb).length + 2 ≠ 0 := by omega
  rw [if_neg hne]
  have h2 : (pre ++ [13, 10, 45, 45] ++ bb).length + 2 - 2
      = (pre ++ [13, 10, 45, 45] ++ bb).length := by omega
  have h1 : (pre ++ [13, 10, 45, 45] ++ bb).length + 2 - 1
      = (pre ++ [13, 10, 45, 45] ++ bb).length + 1 := by omega
  rw [h2, h1, set_last_two]
  have hcrlf : asciiBytes "\r\n" = [13, 10] := by decide
  rw [hcrlf]
  simp [List.append_assoc]

/-- Witness for C5: a buffer made of the prefix bytes `[97, 98]` followed by
the inter-part boundary bytes for `yuki` finishes by replacing the final CRLF
with `--` and appending CRLF. -/
theorem form_finish_spec_witness :
    form_finish ([97, 98] ++ [13, 10, 45, 45] ++ asciiBytes "yuki" ++ [13, 10])
      = (([97, 98] ++ [13, 10, 45, 45] ++ asciiBytes "yuki" ++ [13, 10]).length + 2,
        [97, 98] ++ [13, 10, 45, 45] ++ asciiBytes "yuki" ++ [45, 45, 13, 10]) :=
  (form_finish_spec ([97, 98] ++ [13, 10, 45, 45] ++ asciiBytes "yuki" ++ [13, 10])).2.1
    [97, 98] (asciiBytes "yuki") rfl

/-! ### C6 — `Response::is_internal_error` (src/client/response/mod.rs lines 76-82) -/

/-- `StatusCode::is_client_error`: status in 400..=499. -/
def is_client_error (status : Nat) : Bool :=
  400 ≤ status && status ≤ 499

/-- `Response::is_internal_error` as written in the source: it calls
`is_client_error()` even though its doc comment says range 500 to 599. -/
def is_internal_error (status : Nat) : Bool :=
  is_client_error status

/-- C6: the code evaluated at the failing inputs: `is_internal_error` is
false at 500 (a server error, where the claim and the function's own doc
comment require true) and true at 404 (a client error, where they require
false), because the source body is a copy of `is_client_error`. -/
theorem is_internal_error_bug :
    is_internal_error 500 = false ∧ is_internal_error 404 = true
    ∧ (∀ s, is_internal_error s = is_client_error s) :=
  ⟨rfl, rfl, fun _ => rfl⟩

/-! ### C9 — `Client::apply_headers` (src/client/mod.rs lines 120-134) -/

/-- `DEFAULT_COMPRESS = "br, gzip, deflate"`. -/
def DEFAULT_COMPRESS : List Nat :=
  asciiBytes "br, gzip, deflate"

/-- The `Accept-Encoding` injection block of `Client::apply_headers`: when
decompression is configured, insert the default compressed-encodings value
only if `Accept-Encoding` is absent and `Range` is present. -/
def apply_headers_accept_encoding (decompress : Bool) (headers : Headers) : Headers :=
  if decompress then
    if !hcontains headers "accept-encoding" && hcontains headers "range" then
      hinsert headers "accept-encoding" DEFAULT_COMPRESS
    else headers
  else headers

/-- C9: `Accept-Encoding` is added (with the default compressed-encodings
value) if and only if decompression is enabled, `Range` is present, and the
caller did not set `Accept-Encoding`; in all other cases the entry — and
every other header — is left untouched. -/
theorem apply_headers_accept_encoding_spec (dec : Bool) (hs : Headers) :
    hget (apply_headers_accept_encoding dec hs) "accept-encoding"
      = (if dec && !hcontains hs "accept-encoding" && hcontains hs "range"
          then some DEFAULT_COMPRESS else hget hs "accept-encoding")
    ∧ (∀ k, k ≠ "accept-encoding" →
        hget (apply_headers_accept_encoding dec hs) k = hget hs k) := by
  cases dec with
  | false => exact ⟨by simp [apply_headers_accept_encoding], fun k _ => rfl⟩
  | true =>
    by_cases hcond : (!hcontains hs "accept-encoding" && hcontains hs "range") = true
    · constructor
      · rw [apply_headers_accept_encoding, if_pos rfl, if_pos hcond, hget_hinsert_self]
        simp [hcond]
      · intro k hk
        rw [apply_headers_accept_encoding, if_pos rfl, if_pos hcond,
          hget_hinsert_ne hs "accept-encoding" k DEFAULT_COMPRESS hk]
    · constructor
      · rw [apply_headers_accept_encoding, if_pos rfl, if_neg hcond]
        simp only [Bool.true_and]
        rw [if_neg (by simpa using hcond)]
      · intro k _
        rw [apply_headers_accept_encoding, if_pos rfl, if_neg hcond]

/-- Witness for C9: with decompression on and a `Range` header present but no
`Accept-Encoding`, the default value is injected and the `Range` header is
untouched. -/
theorem apply_headers_accept_encoding_witness :
    hget (apply_headers_accept_encoding true [("range", [48])]) "accept-encoding"
      = some DEFAULT_COMPRESS
    ∧ hget (apply_headers_accept_encoding true [("range", [48])]) "range" = some [48] :=
  ⟨((apply_headers_accept_encoding_spec true [("range", [48])]).1).trans (by decide),
   ((apply_headers_accept_encoding_spec true [("range", [48])]).2 "range"
      (by decide)).trans (by decide)⟩

/-! ### C10 — redirect budget decrement
(src/client/mod.rs lines 236-261, src/client/response/redirect.rs lines 81-101) -/

/-- The redirect statuses handled by the driver: 303 (`SEE_OTHER`) and
301/302/307/308. -/
def is_redirect_status (s : Nat) : Bool :=
  s == 303 || s == 301 || s == 302 || s == 307 || s == 308

/-- One step of the redirect driver's status dispatch: outcome of this hop. -/
inductive RedirectStep
  | underflow
  | ret
  | next (rem : Nat)
  deriving DecidableEq

/-- The status dispatch of `Client::redirect_request` / `HyperRedirectFuture`:
a redirect status first executes `rem_redirect -= 1` on the unsigned counter
(underflow when it is already 0 — a panic in debug builds, wrap-around in
release builds), then returns the response if the decremented counter is 0
and otherwise continues with the new counter; any other status returns the
response. -/
def redirect_status_step (remRedirect status : Nat) : RedirectStep :=
  if is_redirect_status status then
    if remRedirect = 0 then .underflow
    else if remRedirect - 1 = 0 then .ret
    else .next (remRedirect - 1)
  else .ret

/-- C10: the driver decrements the unsigned remaining-redirect counter before
comparing it with zero, so with budget 0 the first response carrying status
301, 302, 303, 307 or 308 underflows the counter instead of returning the
response, while any budget of at least 1 never underflows and any
non-redirect status returns the response. -/
theorem redirect_budget_underflow (r s : Nat) :
    (is_redirect_status s = true → redirect_status_step 0 s = .underflow)
    ∧ (1 ≤ r → redirect_status_step r s ≠ .underflow)
    ∧ (is_redirect_status s = false → redirect_status_step r s = .ret)
    ∧ is_redirect_status 301 = true ∧ is_redirect_status 302 = true
    ∧ is_redirect_status 303 = true ∧ is_redirect_status 307 = true
    ∧ is_redirect_status 308 = true ∧ is_redirect_status 200 = false := by
  refine ⟨?_, ?_, ?_, by decide, by decide, by decide, by decide, by decide, by decide⟩
  · intro h
    rw [redirect_status_step, if_pos h, if_pos rfl]
  · intro h1
    rw [redirect_status_step]
    split_ifs with hs hz hone
    · exact absurd hz (by omega)
    · exact fun hh => RedirectStep.noConfusion hh
    · exact fun hh => RedirectStep.noConfusion hh
    · exact fun hh => RedirectStep.noConfusion hh
  · intro h
    rw [redirect_status_step, if_neg (by simp [h])]

/-- Witness for C10: a 301 response with budget 0 underflows, while the same
response with budget 5 does not. -/
theorem redirect_budget_underflow_witness :
    redirect_status_step 0 301 = .underflow
    ∧ redirect_status_step 5 301 ≠ .underflow :=
  ⟨(redirect_budget_underflow 0 301).1 (by decide),
   (redirect_budget_underflow 5 301).2.1 (by decide)⟩
